import Mathlib

set_option maxRecDepth 100000
set_option linter.unnecessarySeqFocus false

/-!
A shallow embedding of the core of the `satcom-sim` satellite ↔ ground-station
communication simulator, together with theorems settling the specification
claims about it.

Conventions of the embedding:
* `std::string` byte buffers are `List Nat`, each entry one byte value.
* machine integers are `Nat` with explicit `% 2^w` wherever the C++ code
  truncates (casts to `char`/`uint8_t`/`uint16_t`/`uint32_t` and compound
  assignments to narrow fields); a C++ right shift `x >> k` on an unsigned
  value is `x / 2^k`, a left shift `x << k` is `x * 2^k`, and a mask
  `x & 0xFF` is `x % 256`.  Recombinations `hi << 8 | lo` of disjoint byte
  fields (each field `< 256` because it came through a `uint8_t` cast) are
  written `hi * 256 + lo`, which is the same number as the bitwise or.
* fallible code (`Packet::from_bytes`, which throws) returns `Option`.
* the stateful endpoint and link code is embedded as explicit state-passing
  step functions; the random draws of the link and the application payload
  parser (a collaborator that can fail) are parameters of the step functions.
-/

/-! ## CRC engine (src/src/crc.cpp, `crc::crc16_ccitt`) -/

/-- One iteration of the inner loop of `crc::crc16_ccitt`:
`if (crc & 0x8000) crc = (crc << 1) ^ 0x1021; else crc = crc << 1;`
with the result truncated to `uint16_t`.  The test `crc & 0x8000`
is the test of bit 15, written here as `crc / 32768 % 2 = 1`. -/
def crcRound (crc : Nat) : Nat :=
  if crc / 32768 % 2 = 1 then ((crc * 2) ^^^ 4129) % 65536
  else crc * 2 % 65536

/-- Processing of one input byte by `crc::crc16_ccitt`:
`crc ^= static_cast<uint16_t>(data[i]) << 8;` followed by the inner loop
running eight times. -/
def crcByte (crc b : Nat) : Nat :=
  let x := (crc ^^^ b * 256) % 65536
  crcRound (crcRound (crcRound (crcRound (crcRound (crcRound (crcRound (crcRound x)))))))

/-- `crc::crc16_ccitt(data, len)`: register initialised to `0xFFFF`, then the
outer loop over the input bytes. -/
def crc16_ccitt (data : List Nat) : Nat :=
  data.foldl crcByte 0xFFFF

/-! ## Packet codec (src/include/packet.hpp, src/src/packet.cpp) -/

/-- `struct Packet`.  `type` is the underlying `uint8_t` tag of `PacketType`
(`TelemetryPkt = 1`, `CommandPkt = 2`, `AckPkt = 3`, `NakPkt = 4`). -/
structure Packet where
  version : Nat
  type : Nat
  seq : Nat
  payload_size : Nat
  payload : List Nat
  crc16 : Nat
deriving DecidableEq, Repr

/-- The C++ field types of `Packet` (`uint16_t`, `uint8_t` enum, `uint32_t`,
`uint32_t`, byte string, `uint16_t`) bound the field values. -/
def Packet.wf (p : Packet) : Prop :=
  p.version < 65536 ∧ p.type < 256 ∧ p.seq < 4294967296 ∧
  p.payload_size < 4294967296 ∧ p.crc16 < 65536 ∧ ∀ b ∈ p.payload, b < 256

instance (p : Packet) : Decidable p.wf := by
  unfold Packet.wf; infer_instance

/-- `Packet::to_bytes`: 11-byte big-endian header, payload, 2 CRC bytes.
The payload-size field on the wire is `static_cast<uint32_t>(payload.size())`,
i.e. the actual payload length (mod 2^32), not the `payload_size` member. -/
def Packet.to_bytes (p : Packet) : List Nat :=
  let psize := p.payload.length % 4294967296
  p.version / 256 % 256 :: p.version % 256 ::
  p.type % 256 ::
  p.seq / 16777216 % 256 :: p.seq / 65536 % 256 :: p.seq / 256 % 256 :: p.seq % 256 ::
  psize / 16777216 % 256 :: psize / 65536 % 256 :: psize / 256 % 256 :: psize % 256 ::
  (p.payload ++ [p.crc16 / 256 % 256, p.crc16 % 256])

/-- `Packet::from_bytes`.  `none` models the thrown `std::runtime_error`.
`b i` is `static_cast<uint8_t>(bytes[i])`. -/
def Packet.from_bytes (bytes : List Nat) : Option Packet :=
  if bytes.length < 13 then none
  else
    let b : Nat → Nat := fun i => bytes.getD i 0 % 256
    let version := b 0 * 256 + b 1
    let ptype := b 2
    let seq := b 3 * 16777216 + b 4 * 65536 + b 5 * 256 + b 6
    let psize := b 7 * 16777216 + b 8 * 65536 + b 9 * 256 + b 10
    if bytes.length < 11 + psize + 2 then none
    else
      let payload := (bytes.drop 11).take psize
      let crc := b (11 + psize) * 256 + b (12 + psize)
      some { version := version, type := ptype, seq := seq,
             payload_size := psize, payload := payload, crc16 := crc }

/-- The `data` buffer both `Packet::compute_crc` and `Packet::verify_crc`
build: the 11-byte header (with the payload-size field taken from
`payload.size()`) followed by the payload. -/
def Packet.crcData (p : Packet) : List Nat :=
  let psize := p.payload.length % 4294967296
  p.version / 256 % 256 :: p.version % 256 ::
  p.type % 256 ::
  p.seq / 16777216 % 256 :: p.seq / 65536 % 256 :: p.seq / 256 % 256 :: p.seq % 256 ::
  psize / 16777216 % 256 :: psize / 65536 % 256 :: psize / 256 % 256 :: psize % 256 ::
  p.payload

/-- `Packet::compute_crc`: store `crc16_ccitt` of the header+payload buffer in
the `crc16` field. -/
def Packet.compute_crc (p : Packet) : Packet :=
  { p with crc16 := crc16_ccitt p.crcData }

/-- `Packet::verify_crc`: recompute the CRC of the header+payload buffer and
compare with the `crc16` field. -/
def Packet.verify_crc (p : Packet) : Bool :=
  crc16_ccitt p.crcData == p.crc16

/-- The eleven serialized header bytes shared by `Packet::to_bytes`,
`Packet::compute_crc` and `Packet::verify_crc`. -/
def headerBytes (p : Packet) : List Nat :=
  let psize := p.payload.length % 4294967296
  [p.version / 256 % 256, p.version % 256,
   p.type % 256,
   p.seq / 16777216 % 256, p.seq / 65536 % 256, p.seq / 256 % 256, p.seq % 256,
   psize / 16777216 % 256, psize / 65536 % 256, psize / 256 % 256, psize % 256]

/-- The payload size `Packet::from_bytes` reads from bytes 7..10 of the wire
frame. -/
def wirePayloadSize (bytes : List Nat) : Nat :=
  bytes.getD 7 0 % 256 * 16777216 + bytes.getD 8 0 % 256 * 65536 +
  bytes.getD 9 0 % 256 * 256 + bytes.getD 10 0 % 256

/-- `a` and `b` agree on at least three of their four 32-bit-value bytes
(so together with `a ≠ b` they differ in exactly one byte). -/
def sameByte32Except1 (a b : Nat) : Prop :=
  (a / 16777216 % 256 = b / 16777216 % 256 ∧ a / 65536 % 256 = b / 65536 % 256 ∧
    a / 256 % 256 = b / 256 % 256) ∨
  (a / 16777216 % 256 = b / 16777216 % 256 ∧ a / 65536 % 256 = b / 65536 % 256 ∧
    a % 256 = b % 256) ∨
  (a / 16777216 % 256 = b / 16777216 % 256 ∧ a / 256 % 256 = b / 256 % 256 ∧
    a % 256 = b % 256) ∨
  (a / 65536 % 256 = b / 65536 % 256 ∧ a / 256 % 256 = b / 256 % 256 ∧
    a % 256 = b % 256)

/-! ## ARQ endpoints (src/src/satellite.cpp, src/src/ground_station.cpp)

The inbound processors `Satellite::process_commands` and
`GroundStation::receive_telemetry` are embedded as state-transition functions.
The application payload parser (`Command::deserialize` resp.
`Telemetry::from_json`, collaborators that throw on malformed payloads) is
abstracted as a boolean parameter `parseOk`; a `delivered` event is emitted
exactly where the C++ code reaches the application handler after a
successful parse. -/

/-- Observable effects of processing one inbound packet: packets sent on the
reverse direction, and payloads delivered to the application handler. -/
inductive RxEvent where
  | sent (pkt : Packet)
  | delivered (seq : Nat) (payload : List Nat)
deriving DecidableEq, Repr

/-- The ACK packet the endpoints build: default `version = 1`, `type = AckPkt`,
the received packet's `seq`, empty payload, then `compute_crc()`.  (`crc16`
is uninitialised before `compute_crc` overwrites it; `0` here is arbitrary.) -/
def ackPacket (seq : Nat) : Packet :=
  Packet.compute_crc { version := 1, type := 3, seq := seq, payload_size := 0,
                       payload := [], crc16 := 0 }

/-- The NAK packet the endpoints build (`type = NakPkt`), same construction. -/
def nakPacket (seq : Nat) : Packet :=
  Packet.compute_crc { version := 1, type := 4, seq := seq, payload_size := 0,
                       payload := [], crc16 := 0 }

/-- Satellite receiver state touched by `Satellite::process_commands`:
`rx_seq_expected_` and the `commands_received_` counter.  (The satellite has
no NAK-sent counter; its only other counters, `telemetry_sent_`, `retries_`
and `naks_received_`, are not touched by `process_commands`.) -/
structure SatRxState where
  rx_seq_expected : Nat
  commands_received : Nat
deriving DecidableEq, Repr

/-- `Satellite::process_commands`, body of the per-packet loop.
`rx_seq_expected_ = pkt.seq + 1` assigns to a `uint32_t`, hence the
`% 2^32` (it wraps to 0 at `pkt.seq = 0xFFFFFFFF`). -/
def satStep (parseOk : List Nat → Bool) (s : SatRxState) (pkt : Packet) :
    SatRxState × List RxEvent :=
  if pkt.verify_crc = false then
    (s, [.sent (nakPacket pkt.seq)])
  else if pkt.type ≠ 2 then
    (s, [])
  else if pkt.seq < s.rx_seq_expected then
    (s, [.sent (ackPacket pkt.seq)])
  else
    let s1 : SatRxState := { s with rx_seq_expected := (pkt.seq + 1) % 4294967296 }
    if parseOk pkt.payload then
      ({ s1 with commands_received := s1.commands_received + 1 },
       [.delivered pkt.seq pkt.payload, .sent (ackPacket pkt.seq)])
    else
      (s1, [.sent (nakPacket pkt.seq)])

/-- Ground-station receiver state touched by
`GroundStation::receive_telemetry`: `rx_seq_expected_`, `telemetry_received_`
and `naks_sent_`. -/
structure GsRxState where
  rx_seq_expected : Nat
  telemetry_received : Nat
  naks_sent : Nat
deriving DecidableEq, Repr

/-- `GroundStation::receive_telemetry`, body of the per-packet loop.
`rx_seq_expected_ = pkt.seq + 1` assigns to a `uint32_t`, hence the
`% 2^32` (it wraps to 0 at `pkt.seq = 0xFFFFFFFF`). -/
def gsStep (parseOk : List Nat → Bool) (s : GsRxState) (pkt : Packet) :
    GsRxState × List RxEvent :=
  if pkt.verify_crc = false then
    ({ s with naks_sent := s.naks_sent + 1 }, [.sent (nakPacket pkt.seq)])
  else if pkt.type ≠ 1 then
    (s, [])
  else if pkt.seq < s.rx_seq_expected then
    (s, [.sent (ackPacket pkt.seq)])
  else
    let s1 : GsRxState := { s with rx_seq_expected := (pkt.seq + 1) % 4294967296 }
    if parseOk pkt.payload then
      ({ s1 with telemetry_received := s1.telemetry_received + 1 },
       [.delivered pkt.seq pkt.payload, .sent (ackPacket pkt.seq)])
    else
      ({ s1 with naks_sent := s1.naks_sent + 1 }, [.sent (nakPacket pkt.seq)])

/-- The drain loop (`while (link_.recv...)`) over a queue of packets. -/
def satProcess (parseOk : List Nat → Bool) : SatRxState → List Packet →
    SatRxState × List RxEvent
  | s, [] => (s, [])
  | s, pkt :: rest =>
    let r1 := satStep parseOk s pkt
    let r2 := satProcess parseOk r1.1 rest
    (r2.1, r1.2 ++ r2.2)

/-- The drain loop of `GroundStation::receive_telemetry`. -/
def gsProcess (parseOk : List Nat → Bool) : GsRxState → List Packet →
    GsRxState × List RxEvent
  | s, [] => (s, [])
  | s, pkt :: rest =>
    let r1 := gsStep parseOk s pkt
    let r2 := gsProcess parseOk r1.1 rest
    (r2.1, r1.2 ++ r2.2)

/-- The sequence numbers of the payloads delivered to the application
handler, in order. -/
def deliveredSeqs (evs : List RxEvent) : List Nat :=
  evs.filterMap fun e => match e with
    | .delivered s _ => some s
    | .sent _ => none

/-! ## Stop-and-wait sender retry loop (`Satellite::send_telemetry`,
`GroundStation::send_command_with_retry`)

`for (int retry = 0; retry <= max_retries && running_; ++retry)` with a
`break` on a matching ACK.  `ackOk i` abstracts "attempt `i`'s
`wait_for_ack` observed the matching ACK"; the claim conditions on the
endpoint staying running, so `running_` is `true` throughout. -/

/-- The retry loop from iteration `retry` on.  Returns the number of send
attempts performed from this iteration on, and whether one succeeded. -/
def retryLoopFrom (maxRetries : Nat) (ackOk : Nat → Bool) (retry : Nat) :
    Nat × Bool :=
  if retry ≤ maxRetries then
    if ackOk retry then (1, true)
    else
      let r := retryLoopFrom maxRetries ackOk (retry + 1)
      (r.1 + 1, r.2)
  else (0, false)
termination_by maxRetries + 1 - retry

/-- One whole outbound send operation: the retry loop started at `retry = 0`,
followed by `if (success) <sent counter>++`.  Returns (attempts made,
success, updated type-specific sent counter). -/
def sendWithRetry (maxRetries : Nat) (ackOk : Nat → Bool) (sentCounter : Nat) :
    Nat × Bool × Nat :=
  let r := retryLoopFrom maxRetries ackOk 0
  (r.1, r.2, if r.2 then sentCounter + 1 else sentCounter)

/-! ## Impairment channel (src/src/link.cpp) -/

/-- Direction of a `Link` send. -/
inductive Dir where
  | satToGs
  | gsToSat
deriving DecidableEq, Repr

/-- `Link` state: the two counters and the two directional FIFOs. -/
structure LinkState where
  packets_sent : Nat
  packets_dropped : Nat
  sat_to_gs : List Packet
  gs_to_sat : List Packet
deriving DecidableEq, Repr

/-- `Link::apply_impairments_and_send`.  `lost` abstracts the RNG draw
`loss_value < config_.loss_prob`; the latency sleep does not change state. -/
def applyImpairmentsAndSend (lost : Bool) (pkt : Packet) (dir : Dir)
    (L : LinkState) : LinkState :=
  let L1 : LinkState := { L with packets_sent := L.packets_sent + 1 }
  if lost then { L1 with packets_dropped := L1.packets_dropped + 1 }
  else
    match dir with
    | .satToGs => { L1 with sat_to_gs := L1.sat_to_gs ++ [pkt] }
    | .gsToSat => { L1 with gs_to_sat := L1.gs_to_sat ++ [pkt] }

/-- A finite sequence of send calls on the channel. -/
def linkRun (sends : List (Bool × Dir × Packet)) : LinkState :=
  sends.foldl (fun L e => applyImpairmentsAndSend e.1 e.2.2 e.2.1 L)
    ⟨0, 0, [], []⟩

/-! ## ACK waiters (`Satellite::wait_for_ack`, `GroundStation::wait_for_ack`)

`link_.recv_...(pkt, timeout)` pops the oldest queued packet if one becomes
available within the timeout; the queue is embedded as the list of packets
it will yield, so an empty list is a timeout. -/

/-- `Satellite::wait_for_ack(seq, timeout)`: one `recv`, then the
ACK/NAK/other triage (a matching NAK increments `naks_received_`).
Returns (result, updated `naks_received_`, remaining queue). -/
def satWaitForAck (seq : Nat) (naksReceived : Nat) :
    List Packet → Bool × Nat × List Packet
  | [] => (false, naksReceived, [])
  | pkt :: rest =>
    if pkt.type = 3 ∧ pkt.seq = seq then (true, naksReceived, rest)
    else if pkt.type = 4 ∧ pkt.seq = seq then (false, naksReceived + 1, rest)
    else (false, naksReceived, rest)

/-- `GroundStation::wait_for_ack(seq, timeout)` (no counter updates).
Returns (result, remaining queue). -/
def gsWaitForAck (seq : Nat) : List Packet → Bool × List Packet
  | [] => (false, [])
  | pkt :: rest =>
    if pkt.type = 3 ∧ pkt.seq = seq then (true, rest)
    else if pkt.type = 4 ∧ pkt.seq = seq then (false, rest)
    else (false, rest)

/-! ## CRC facts: the register update is injective, so two buffers of equal
length that differ in exactly one byte have different CRCs. -/

theorem xor_mod_two_pow (a b n : Nat) : (a ^^^ b) % 2 ^ n = a % 2 ^ n ^^^ b % 2 ^ n := by
  apply Nat.eq_of_testBit_eq
  intro i
  simp only [Nat.testBit_mod_two_pow, Nat.testBit_xor]
  by_cases h : i < n <;> simp [h]

theorem xor_right_cancel {a b c : Nat} (h : a ^^^ c = b ^^^ c) : a = b := by
  have h2 := congrArg (· ^^^ c) h
  simpa [Nat.xor_cancel_right] using h2

theorem xor_mod_65536 (a b : Nat) : (a ^^^ b) % 65536 = a % 65536 ^^^ b % 65536 := by
  have h := xor_mod_two_pow a b 16
  norm_num at h
  exact h

theorem xor_mod_two (a b : Nat) : (a ^^^ b) % 2 = (a % 2 + b % 2) % 2 := by
  have h := xor_mod_two_pow a b 1
  simp only [pow_one] at h
  rw [h]
  rcases Nat.mod_two_eq_zero_or_one a with ha | ha <;>
    rcases Nat.mod_two_eq_zero_or_one b with hb | hb <;> rw [ha, hb] <;> decide

theorem crcRound_lt (r : Nat) : crcRound r < 65536 := by
  unfold crcRound
  split <;> exact Nat.mod_lt _ (by norm_num)

theorem crcRound_inj {r₁ r₂ : Nat} (h₁ : r₁ < 65536) (h₂ : r₂ < 65536)
    (h : crcRound r₁ = crcRound r₂) : r₁ = r₂ := by
  unfold crcRound at h
  by_cases c₁ : r₁ / 32768 % 2 = 1 <;> by_cases c₂ : r₂ / 32768 % 2 = 1
  · rw [if_pos c₁, if_pos c₂, xor_mod_65536, xor_mod_65536] at h
    have h' := xor_right_cancel h
    omega
  · rw [if_pos c₁, if_neg c₂] at h
    have hp := congrArg (· % 2) h
    simp only [Nat.mod_mod_of_dvd _ (by norm_num : (2 : Nat) ∣ 65536), xor_mod_two] at hp
    omega
  · rw [if_neg c₁, if_pos c₂] at h
    have hp := congrArg (· % 2) h
    simp only [Nat.mod_mod_of_dvd _ (by norm_num : (2 : Nat) ∣ 65536), xor_mod_two] at hp
    omega
  · rw [if_neg c₁, if_neg c₂] at h
    omega

theorem crcByte_lt (crc b : Nat) : crcByte crc b < 65536 := crcRound_lt _

theorem crcRound8_inj {x₁ x₂ : Nat} (h₁ : x₁ < 65536) (h₂ : x₂ < 65536)
    (h : crcRound (crcRound (crcRound (crcRound (crcRound (crcRound (crcRound (crcRound x₁))))))) =
         crcRound (crcRound (crcRound (crcRound (crcRound (crcRound (crcRound (crcRound x₂)))))))) :
    x₁ = x₂ := by
  have L := crcRound_lt
  exact crcRound_inj h₁ h₂ (crcRound_inj (L _) (L _) (crcRound_inj (L _) (L _)
    (crcRound_inj (L _) (L _) (crcRound_inj (L _) (L _) (crcRound_inj (L _) (L _)
    (crcRound_inj (L _) (L _) (crcRound_inj (L _) (L _) h)))))))

theorem crcByte_inj_left {r₁ r₂ : Nat} (b : Nat) (h₁ : r₁ < 65536) (h₂ : r₂ < 65536)
    (h : crcByte r₁ b = crcByte r₂ b) : r₁ = r₂ := by
  simp only [crcByte] at h
  have hx := crcRound8_inj (Nat.mod_lt _ (by norm_num)) (Nat.mod_lt _ (by norm_num)) h
  rw [xor_mod_65536, xor_mod_65536, Nat.mod_eq_of_lt h₁, Nat.mod_eq_of_lt h₂] at hx
  exact xor_right_cancel hx

theorem crcByte_inj_right {b₁ b₂ : Nat} (r : Nat)
    (h₁ : b₁ < 256) (h₂ : b₂ < 256) (h : crcByte r b₁ = crcByte r b₂) : b₁ = b₂ := by
  simp only [crcByte] at h
  have hx := crcRound8_inj (Nat.mod_lt _ (by norm_num)) (Nat.mod_lt _ (by norm_num)) h
  rw [xor_mod_65536, xor_mod_65536] at hx
  have h1 := congrArg (r % 65536 ^^^ ·) hx
  simp only [Nat.xor_cancel_left] at h1
  omega

theorem foldl_crcByte_lt (l : List Nat) : ∀ r, r < 65536 → l.foldl crcByte r < 65536 := by
  induction l with
  | nil => intro r hr; simpa using hr
  | cons a t ih => intro r hr; simpa using ih (crcByte r a) (crcByte_lt r a)

theorem foldl_crcByte_inj (l : List Nat) :
    ∀ r₁ r₂, r₁ < 65536 → r₂ < 65536 →
      l.foldl crcByte r₁ = l.foldl crcByte r₂ → r₁ = r₂ := by
  induction l with
  | nil => intro r₁ r₂ _ _ h; simpa using h
  | cons a t ih =>
    intro r₁ r₂ h₁ h₂ h
    simp only [List.foldl_cons] at h
    exact crcByte_inj_left a h₁ h₂ (ih _ _ (crcByte_lt r₁ a) (crcByte_lt r₂ a) h)

/-- Two equal-length byte buffers that differ in exactly one byte have
different `crc16_ccitt` values. -/
theorem crc16_single_byte_ne (pre suf : List Nat) {b₁ b₂ : Nat}
    (h₁ : b₁ < 256) (h₂ : b₂ < 256) (hne : b₁ ≠ b₂) :
    crc16_ccitt (pre ++ b₁ :: suf) ≠ crc16_ccitt (pre ++ b₂ :: suf) := by
  intro h
  unfold crc16_ccitt at h
  rw [List.foldl_append, List.foldl_append, List.foldl_cons, List.foldl_cons] at h
  have hb := foldl_crcByte_inj suf _ _ (crcByte_lt _ _) (crcByte_lt _ _) h
  exact hne (crcByte_inj_right _ h₁ h₂ hb)

/-! ## Codec facts -/

theorem crcData_decomp (p : Packet) : p.crcData = headerBytes p ++ p.payload := rfl

theorem to_bytes_decomp (p : Packet) :
    p.to_bytes = (headerBytes p ++ p.payload) ++ [p.crc16 / 256 % 256, p.crc16 % 256] := by
  show p.to_bytes = headerBytes p ++ (p.payload ++ [p.crc16 / 256 % 256, p.crc16 % 256])
  rfl

theorem to_bytes_length (p : Packet) : p.to_bytes.length = 13 + p.payload.length := by
  simp [to_bytes_decomp, headerBytes]
  omega

theorem getD_concat2_first (l : List Nat) (c₁ c₂ : Nat) :
    (l ++ [c₁, c₂]).getD l.length 0 = c₁ := by
  rw [List.getD_append_right _ _ _ _ (le_refl _)]
  simp

theorem getD_concat2_second (l : List Nat) (c₁ c₂ : Nat) :
    (l ++ [c₁, c₂]).getD (l.length + 1) 0 = c₂ := by
  rw [List.getD_append_right _ _ _ _ (Nat.le_add_right _ _)]
  simp

/-- Decoding inverts encoding for packets whose fields respect the C++ field
widths and whose `payload_size` member equals the actual payload length. -/
theorem from_bytes_to_bytes (p : Packet) (hwf : p.wf)
    (hsz : p.payload_size = p.payload.length) :
    Packet.from_bytes p.to_bytes = some p := by
  obtain ⟨hv, ht, hs, hz, hc, hpl⟩ := hwf
  have hlen : p.payload.length < 4294967296 := hsz ▸ hz
  have g0 : p.to_bytes.getD 0 0 = p.version / 256 % 256 := rfl
  have g1 : p.to_bytes.getD 1 0 = p.version % 256 := rfl
  have g2 : p.to_bytes.getD 2 0 = p.type % 256 := rfl
  have g3 : p.to_bytes.getD 3 0 = p.seq / 16777216 % 256 := rfl
  have g4 : p.to_bytes.getD 4 0 = p.seq / 65536 % 256 := rfl
  have g5 : p.to_bytes.getD 5 0 = p.seq / 256 % 256 := rfl
  have g6 : p.to_bytes.getD 6 0 = p.seq % 256 := rfl
  have g7 : p.to_bytes.getD 7 0 = p.payload.length % 4294967296 / 16777216 % 256 := rfl
  have g8 : p.to_bytes.getD 8 0 = p.payload.length % 4294967296 / 65536 % 256 := rfl
  have g9 : p.to_bytes.getD 9 0 = p.payload.length % 4294967296 / 256 % 256 := rfl
  have g10 : p.to_bytes.getD 10 0 = p.payload.length % 4294967296 % 256 := rfl
  have hE : p.to_bytes.getD 7 0 % 256 * 16777216 + p.to_bytes.getD 8 0 % 256 * 65536 +
      p.to_bytes.getD 9 0 % 256 * 256 + p.to_bytes.getD 10 0 % 256 = p.payload.length := by
    rw [g7, g8, g9, g10]; omega
  have hlen2 : (headerBytes p ++ p.payload).length = 11 + p.payload.length := by
    simp [headerBytes]
    omega
  have hcrc1 : p.to_bytes.getD (11 + p.payload.length) 0 = p.crc16 / 256 % 256 := by
    rw [to_bytes_decomp, ← hlen2, getD_concat2_first]
  have hcrc2 : p.to_bytes.getD (12 + p.payload.length) 0 = p.crc16 % 256 := by
    rw [to_bytes_decomp, show 12 + p.payload.length = (11 + p.payload.length) + 1 by omega,
      ← hlen2, getD_concat2_second]
  have hdrop : p.to_bytes.drop 11 = p.payload ++ [p.crc16 / 256 % 256, p.crc16 % 256] := rfl
  simp only [Packet.from_bytes, to_bytes_length]
  rw [if_neg (by omega), hE, if_neg (by omega)]
  refine congrArg some ?_
  have hpay : (p.to_bytes.drop 11).take p.payload.length = p.payload := by
    rw [hdrop]; exact List.take_left _ _
  have heta : p = ⟨p.version, p.type, p.seq, p.payload_size, p.payload, p.crc16⟩ := rfl
  refine Eq.trans ?_ heta.symm
  simp only [Packet.mk.injEq]
  refine ⟨?_, ?_, ?_, ?_, hpay, ?_⟩
  · rw [g0, g1]; omega
  · rw [g2]; omega
  · rw [g3, g4, g5, g6]; omega
  · omega
  · rw [hcrc1, hcrc2]; omega

theorem crcData_set_crc (p : Packet) (c : Nat) :
    Packet.crcData { p with crc16 := c } = p.crcData := rfl

theorem verify_crc_compute (p : Packet) : p.compute_crc.verify_crc = true := by
  simp [Packet.verify_crc, Packet.compute_crc, crcData_set_crc]

theorem from_bytes_none_iff (bytes : List Nat) :
    Packet.from_bytes bytes = none ↔
      bytes.length < 13 ∨ bytes.length < 11 + wirePayloadSize bytes + 2 := by
  simp only [Packet.from_bytes, wirePayloadSize]
  split_ifs with h1 h2
  · exact iff_of_true rfl (Or.inl h1)
  · exact iff_of_true rfl (Or.inr h2)
  · exact iff_of_false (by simp) (by omega)

/-- If `q'` carries the CRC computed for `p` but its CRC-covered buffer
differs from `p`'s in exactly one byte, verification fails on `q'`. -/
theorem verify_false_of_data_diff (p q' : Packet) (pre suf : List Nat) (b₁ b₂ : Nat)
    (h₁ : b₁ < 256) (h₂ : b₂ < 256) (hne : b₁ ≠ b₂)
    (hp : p.crcData = pre ++ b₁ :: suf) (hq' : q'.crcData = pre ++ b₂ :: suf)
    (hcrc : q'.crc16 = crc16_ccitt p.crcData) : q'.verify_crc = false := by
  have hne' : crc16_ccitt (pre ++ b₂ :: suf) ≠ crc16_ccitt (pre ++ b₁ :: suf) :=
    crc16_single_byte_ne pre suf h₂ h₁ (Ne.symm hne)
  simp only [Packet.verify_crc, hcrc, hq', hp]
  exact beq_eq_false_iff_ne.mpr hne'

/-! ## Claim theorems -/

/-- C1, counterexample: the claim calls every packet whose payload length
fits in 32 bits valid and asserts all fields round-trip, but a packet whose
`payload_size` member disagrees with its payload length decodes to a packet
with a different `payload_size` (the wire carries `payload.size()`, and the
decoder stores what it read). -/
theorem claim1_roundtrip_counterexample :
    Packet.from_bytes (Packet.to_bytes
        { version := 1, type := 1, seq := 0, payload_size := 5, payload := [], crc16 := 0 }) =
      some { version := 1, type := 1, seq := 0, payload_size := 0, payload := [], crc16 := 0 } ∧
    ({ version := 1, type := 1, seq := 0, payload_size := 5, payload := [], crc16 := 0 } : Packet) ≠
      { version := 1, type := 1, seq := 0, payload_size := 0, payload := [], crc16 := 0 } := by
  constructor <;> decide

/-- C1, amended: for every packet whose fields respect the C++ field widths
and whose `payload_size` member equals the actual payload length,
`Packet::from_bytes (Packet::to_bytes p)` succeeds and returns `p` itself
(all of version, type, seq, payload_size, payload and crc16 round-trip). -/
theorem claim1_roundtrip (p : Packet) (hwf : p.wf)
    (hsz : p.payload_size = p.payload.length) :
    Packet.from_bytes p.to_bytes = some p :=
  from_bytes_to_bytes p hwf hsz

theorem claim1_roundtrip_witness :
    (Packet.wf { version := 1, type := 1, seq := 12345, payload_size := 4,
                 payload := [116, 101, 115, 116], crc16 := 4660 } ∧
     (4 : Nat) = [116, 101, 115, 116].length) ∧
    Packet.from_bytes (Packet.to_bytes
        { version := 1, type := 1, seq := 12345, payload_size := 4,
          payload := [116, 101, 115, 116], crc16 := 4660 }) =
      some { version := 1, type := 1, seq := 12345, payload_size := 4,
             payload := [116, 101, 115, 116], crc16 := 4660 } :=
  ⟨⟨by decide, by decide⟩,
   claim1_roundtrip _ (by decide) (by decide)⟩

/-- C3: `crc16_ccitt` is CRC-16/CCITT-FALSE: register starts at `0xFFFF`
(the empty-input value), each input byte is XORed into the high byte of the
register and followed by eight shift-and-conditionally-XOR rounds modulo
2^16, and the known-answer test over ASCII "123456789" gives `0x29B1`. -/
theorem claim3_crc16_known_answers :
    crc16_ccitt [49, 50, 51, 52, 53, 54, 55, 56, 57] = 0x29B1 ∧
    crc16_ccitt [] = 0xFFFF ∧
    (∀ data b, crc16_ccitt (data ++ [b]) =
      crcRound (crcRound (crcRound (crcRound (crcRound (crcRound (crcRound (crcRound
        ((crc16_ccitt data ^^^ b * 256) % 65536))))))))) := by
  refine ⟨by decide, by decide, fun data b => ?_⟩
  simp [crc16_ccitt, List.foldl_append, crcByte]

/-- C4, counterexample: a 14-byte frame whose payload-size field is 0 has one
excess trailing byte (14 > 13 + 0), yet `Packet::from_bytes` succeeds — the
decoder never rejects trailing bytes. -/
theorem claim4_trailing_bytes_counterexample :
    Packet.from_bytes (List.replicate 14 0) ≠ none ∧
    13 + wirePayloadSize (List.replicate 14 0) < (List.replicate 14 0).length := by
  constructor <;> decide

/-- C4, amended: `Packet::from_bytes b` fails exactly when `b` is too short:
when `b.length < 13`, or when, with `payload_size` read from bytes 7..10,
`b.length < 11 + payload_size + 2`.  Excess trailing bytes are accepted and
ignored, not a decode error. -/
theorem claim4_from_bytes_failure_iff (bytes : List Nat) :
    Packet.from_bytes bytes = none ↔
      bytes.length < 13 ∨ bytes.length < 11 + wirePayloadSize bytes + 2 :=
  from_bytes_none_iff bytes

/-- C9: `to_bytes`, `compute_crc` and `verify_crc` all derive the wire
payload-size from `payload.size()` and never read the stored `payload_size`
member, so two packets differing only in `payload_size` encode identically,
get the same CRC, verify identically, and a `payload_size`-inconsistent
packet still passes CRC verification after `compute_crc`. -/
theorem claim9_payload_size_ignored (p : Packet) (z : Nat) :
    ({ p with payload_size := z } : Packet).to_bytes = p.to_bytes ∧
    ({ p with payload_size := z } : Packet).compute_crc.crc16 = p.compute_crc.crc16 ∧
    ({ p with payload_size := z } : Packet).verify_crc = p.verify_crc ∧
    ({ p with payload_size := z } : Packet).compute_crc.verify_crc = true :=
  ⟨rfl, rfl, rfl, verify_crc_compute _⟩

/-- C2, counterexample: the stored `payload_size` member is not covered by
the CRC (both `compute_crc` and `verify_crc` serialize `payload.size()`
instead), so mutating it after `compute_crc` leaves `verify_crc` true,
contrary to the claim's list of protected fields. -/
theorem claim2_payload_size_mutation_counterexample :
    ({ Packet.compute_crc ⟨1, 1, 0, 0, [], 0⟩ with payload_size := 7 } : Packet).verify_crc = true ∧
    (7 : Nat) ≠ 0 := by
  constructor <;> decide

set_option maxHeartbeats 1600000 in
/-- C2, amended: after `compute_crc`, `verify_crc` returns true; and changing
any single byte of `version`, `type`, `seq` or `payload` (without
recomputing), or the `crc16` field, makes `verify_crc` return false.  The
`payload_size` member is not covered (see the counterexample). -/
theorem claim2_crc_detects_single_byte_mutation (p : Packet) (hwf : p.wf) :
    p.compute_crc.verify_crc = true ∧
    (∀ v', v' < 65536 → v' ≠ p.version →
      (v' / 256 = p.version / 256 ∨ v' % 256 = p.version % 256) →
      ({ p.compute_crc with version := v' } : Packet).verify_crc = false) ∧
    (∀ t', t' < 256 → t' ≠ p.type →
      ({ p.compute_crc with type := t' } : Packet).verify_crc = false) ∧
    (∀ s', s' < 4294967296 → s' ≠ p.seq → sameByte32Except1 s' p.seq →
      ({ p.compute_crc with seq := s' } : Packet).verify_crc = false) ∧
    (∀ i b', i < p.payload.length → b' < 256 → b' ≠ p.payload.getD i 0 →
      ({ p.compute_crc with payload := p.payload.set i b' } : Packet).verify_crc = false) ∧
    (∀ c', c' ≠ p.compute_crc.crc16 →
      ({ p.compute_crc with crc16 := c' } : Packet).verify_crc = false) := by
  obtain ⟨hv, ht, hs, hz, hc, hpl⟩ := hwf
  refine ⟨verify_crc_compute p, ?_, ?_, ?_, ?_, ?_⟩
  · intro v' hv' hne hone
    rcases hone with hhigh | hlow
    · exact verify_false_of_data_diff p _ [p.version / 256 % 256] (p.crcData.drop 2)
        (p.version % 256) (v' % 256) (by omega) (by omega) (by omega) rfl
        (by rw [← hhigh]; exact rfl) rfl
    · exact verify_false_of_data_diff p _ [] (p.version % 256 :: p.crcData.drop 2)
        (p.version / 256 % 256) (v' / 256 % 256) (by omega) (by omega) (by omega) rfl
        (by rw [← hlow]; exact rfl) rfl
  · intro t' ht' hne
    exact verify_false_of_data_diff p _ [p.version / 256 % 256, p.version % 256]
      (p.crcData.drop 3) (p.type % 256) (t' % 256) (by omega) (by omega) (by omega)
      rfl rfl rfl
  · intro s' hs' hne hone
    rcases hone with ⟨h3, h2, h1⟩ | ⟨h3, h2, h0⟩ | ⟨h3, h1, h0⟩ | ⟨h2, h1, h0⟩
    · exact verify_false_of_data_diff p _
        [p.version / 256 % 256, p.version % 256, p.type % 256, p.seq / 16777216 % 256,
         p.seq / 65536 % 256, p.seq / 256 % 256]
        (p.crcData.drop 7)
        (p.seq % 256) (s' % 256) (by omega) (by omega) (by omega) rfl
        (by rw [← h3, ← h2, ← h1]; exact rfl) rfl
    · exact verify_false_of_data_diff p _
        [p.version / 256 % 256, p.version % 256, p.type % 256, p.seq / 16777216 % 256,
         p.seq / 65536 % 256]
        (p.seq % 256 :: p.crcData.drop 7)
        (p.seq / 256 % 256) (s' / 256 % 256) (by omega) (by omega) (by omega) rfl
        (by rw [← h3, ← h2, ← h0]; exact rfl) rfl
    · exact verify_false_of_data_diff p _
        [p.version / 256 % 256, p.version % 256, p.type % 256, p.seq / 16777216 % 256]
        (p.seq / 256 % 256 :: p.seq % 256 :: p.crcData.drop 7)
        (p.seq / 65536 % 256) (s' / 65536 % 256) (by omega) (by omega) (by omega) rfl
        (by rw [← h3, ← h1, ← h0]; exact rfl) rfl
    · exact verify_false_of_data_diff p _
        [p.version / 256 % 256, p.version % 256, p.type % 256]
        (p.seq / 65536 % 256 :: p.seq / 256 % 256 :: p.seq % 256 :: p.crcData.drop 7)
        (p.seq / 16777216 % 256) (s' / 16777216 % 256) (by omega) (by omega) (by omega) rfl
        (by rw [← h2, ← h1, ← h0]; exact rfl) rfl
  · intro i b' hi hb' hne
    have hpdecomp : p.payload = p.payload.take i ++ p.payload.getD i 0 :: p.payload.drop (i + 1) := by
      conv_lhs => rw [← List.take_append_drop i p.payload, List.drop_eq_getElem_cons hi]
      rw [List.getD_eq_getElem _ _ hi]
    have hp2 : p.crcData =
        (headerBytes p ++ p.payload.take i) ++ p.payload.getD i 0 :: p.payload.drop (i + 1) := by
      rw [crcData_decomp, List.append_assoc]
      exact congrArg (headerBytes p ++ ·) hpdecomp
    have hlenset : (p.payload.set i b').length = p.payload.length := by simp
    have hhb : headerBytes { p.compute_crc with payload := p.payload.set i b' } =
        headerBytes p := by
      simp [headerBytes, Packet.compute_crc]
    have hq' : ({ p.compute_crc with payload := p.payload.set i b' } : Packet).crcData =
        (headerBytes p ++ p.payload.take i) ++ b' :: p.payload.drop (i + 1) := by
      rw [crcData_decomp, hhb,
        show ({ p.compute_crc with payload := p.payload.set i b' } : Packet).payload =
          p.payload.set i b' from rfl,
        List.set_eq_take_cons_drop b' hi, ← List.append_assoc]
    have hb1 : p.payload.getD i 0 < 256 := by
      rw [List.getD_eq_getElem _ _ hi]
      exact hpl _ (List.getElem_mem hi)
    exact verify_false_of_data_diff p { p.compute_crc with payload := p.payload.set i b' }
      (headerBytes p ++ p.payload.take i) (p.payload.drop (i + 1))
      (p.payload.getD i 0) b' hb1 hb' (Ne.symm hne) hp2 hq' rfl
  · intro c' hne
    have h1 : ({ p.compute_crc with crc16 := c' } : Packet).verify_crc =
        (crc16_ccitt p.crcData == c') := rfl
    rw [h1]
    exact beq_eq_false_iff_ne.mpr (Ne.symm hne)

theorem claim2_crc_detects_single_byte_mutation_witness :
    Packet.wf ⟨1, 1, 5, 1, [42], 0⟩ ∧
    (Packet.compute_crc ⟨1, 1, 5, 1, [42], 0⟩).verify_crc = true ∧
    ({ Packet.compute_crc ⟨1, 1, 5, 1, [42], 0⟩ with type := 2 } : Packet).verify_crc = false ∧
    ({ Packet.compute_crc ⟨1, 1, 5, 1, [42], 0⟩ with
         payload := (⟨1, 1, 5, 1, [42], 0⟩ : Packet).payload.set 0 43 } : Packet).verify_crc = false :=
  ⟨by decide,
   (claim2_crc_detects_single_byte_mutation _ (by decide)).1,
   (claim2_crc_detects_single_byte_mutation _ (by decide)).2.2.1 2 (by decide) (by decide),
   (claim2_crc_detects_single_byte_mutation _ (by decide)).2.2.2.2.1 0 43 (by decide)
     (by decide) (by decide)⟩

/-- Specification of the retry loop `retryLoopFrom m ackOk r` (the loop of
`Satellite::send_telemetry` / `GroundStation::send_command_with_retry`
resumed at iteration `r`): it makes at most `m + 1 - r` attempts, succeeds
iff some attempt in `r..m` observes the ACK, makes exactly `m + 1 - r`
attempts when it fails, and on success stops right after the first
successful attempt. -/
theorem retryLoopFrom_spec (m : Nat) (ackOk : Nat → Bool) (r : Nat) :
    (retryLoopFrom m ackOk r).1 ≤ m + 1 - r ∧
    ((retryLoopFrom m ackOk r).2 = true ↔ ∃ i, r ≤ i ∧ i ≤ m ∧ ackOk i = true) ∧
    ((retryLoopFrom m ackOk r).2 = false → (retryLoopFrom m ackOk r).1 = m + 1 - r) ∧
    ((retryLoopFrom m ackOk r).2 = true →
      ackOk (r + (retryLoopFrom m ackOk r).1 - 1) = true ∧
      ∀ j, r ≤ j → j < r + (retryLoopFrom m ackOk r).1 - 1 → ackOk j = false) := by
  generalize hk : m + 1 - r = k
  induction k generalizing r with
  | zero =>
    have hr : ¬ r ≤ m := by omega
    rw [retryLoopFrom, if_neg hr]
    refine ⟨?_, ?_, ?_, ?_⟩
    · show (0 : Nat) ≤ 0
      omega
    · show false = true ↔ _
      simp only [Bool.false_eq_true, false_iff]
      rintro ⟨i, hi1, hi2, _⟩
      omega
    · intro _
      show (0 : Nat) = 0
      rfl
    · intro h
      exact absurd h (by simp)
  | succ k ih =>
    have hr : r ≤ m := by omega
    rw [retryLoopFrom, if_pos hr]
    by_cases hack : ackOk r = true
    · rw [if_pos hack]
      refine ⟨?_, ?_, ?_, ?_⟩
      · show (1 : Nat) ≤ k + 1
        omega
      · show true = true ↔ _
        simp only [true_iff]
        exact ⟨r, le_refl r, hr, hack⟩
      · intro h
        exact absurd h (by simp)
      · intro _
        refine ⟨?_, ?_⟩
        · show ackOk (r + 1 - 1) = true
          simpa using hack
        · intro j h1 h2
          omega
    · have hack' : ackOk r = false := by
        cases h : ackOk r
        · rfl
        · exact absurd h hack
      rw [if_neg hack]
      have ihr := ih (r + 1) (by omega)
      obtain ⟨ih1, ih2, ih3, ih4⟩ := ihr
      refine ⟨?_, ?_, ?_, ?_⟩
      · show (retryLoopFrom m ackOk (r + 1)).1 + 1 ≤ k + 1
        omega
      · show (retryLoopFrom m ackOk (r + 1)).2 = true ↔ _
        rw [ih2]
        constructor
        · rintro ⟨i, hi1, hi2, hi3⟩
          exact ⟨i, by omega, hi2, hi3⟩
        · rintro ⟨i, hi1, hi2, hi3⟩
          refine ⟨i, ?_, hi2, hi3⟩
          rcases Nat.eq_or_lt_of_le hi1 with he | hl
          · subst he
            rw [hi3] at hack'
            simp at hack'
          · omega
      · intro hfail
        have hfail' : (retryLoopFrom m ackOk (r + 1)).2 = false := hfail
        have := ih3 hfail'
        show (retryLoopFrom m ackOk (r + 1)).1 + 1 = k + 1
        omega
      · intro hsucc
        have hsucc' : (retryLoopFrom m ackOk (r + 1)).2 = true := hsucc
        obtain ⟨ha, hb⟩ := ih4 hsucc'
        refine ⟨?_, ?_⟩
        · show ackOk (r + ((retryLoopFrom m ackOk (r + 1)).1 + 1) - 1) = true
          have heq : r + ((retryLoopFrom m ackOk (r + 1)).1 + 1) - 1 =
              r + 1 + (retryLoopFrom m ackOk (r + 1)).1 - 1 := by omega
          rw [heq]
          exact ha
        · intro j h1 h2
          rcases Nat.eq_or_lt_of_le h1 with he | hl
          · subst he
            exact hack'
          · refine hb j (by omega) ?_
            have h2' : j < r + ((retryLoopFrom m ackOk (r + 1)).1 + 1) - 1 := h2
            omega

/-- C6: each outbound send operation makes at most `max_retries + 1`
attempts; it succeeds iff some attempt in `0..max_retries` observes the
matching ACK; it stops at the first successful attempt (all earlier
attempts missed, the last one hit); on failure it performs exactly
`max_retries + 1` attempts and just gives up (the function is total — no
exception, the loop ends); and the type-specific sent counter is
incremented exactly when the operation succeeds. -/
theorem claim6_send_retry (m : Nat) (ackOk : Nat → Bool) (c : Nat) :
    (sendWithRetry m ackOk c).1 ≤ m + 1 ∧
    ((sendWithRetry m ackOk c).2.1 = true ↔ ∃ i, i ≤ m ∧ ackOk i = true) ∧
    ((sendWithRetry m ackOk c).2.1 = true →
      ackOk ((sendWithRetry m ackOk c).1 - 1) = true ∧
      ∀ j, j < (sendWithRetry m ackOk c).1 - 1 → ackOk j = false) ∧
    ((sendWithRetry m ackOk c).2.1 = false → (sendWithRetry m ackOk c).1 = m + 1) ∧
    (sendWithRetry m ackOk c).2.2 =
      (if (sendWithRetry m ackOk c).2.1 = true then c + 1 else c) := by
  obtain ⟨h1, h2, h3, h4⟩ := retryLoopFrom_spec m ackOk 0
  refine ⟨by simpa [sendWithRetry] using h1, ?_, ?_, ?_, rfl⟩
  · simp only [sendWithRetry]
    rw [h2]
    constructor
    · rintro ⟨i, _, hi2, hi3⟩; exact ⟨i, hi2, hi3⟩
    · rintro ⟨i, hi2, hi3⟩; exact ⟨i, Nat.zero_le i, hi2, hi3⟩
  · intro hsucc
    obtain ⟨ha, hb⟩ := h4 hsucc
    constructor
    · simpa [sendWithRetry] using ha
    · intro j hj
      exact hb j (Nat.zero_le j) (by simpa [sendWithRetry] using hj)
  · intro hfail
    have := h3 hfail
    simpa [sendWithRetry] using this

theorem claim6_send_retry_witness :
    (sendWithRetry 3 (fun i => decide (i = 2)) 0).1 ≤ 4 ∧
    (sendWithRetry 3 (fun i => decide (i = 2)) 0).2.1 = true ∧
    (sendWithRetry 3 (fun i => decide (i = 2)) 0).2.2 = 1 :=
  ⟨(claim6_send_retry 3 (fun i => decide (i = 2)) 0).1,
   (claim6_send_retry 3 (fun i => decide (i = 2)) 0).2.1.mpr ⟨2, by decide, by decide⟩,
   by simp [sendWithRetry, retryLoopFrom]⟩

/-- C7, counterexample: the satellite emits the NAK for a bad-CRC command
packet but its state — including every counter it has — is left completely
unchanged: `Satellite` has no NAK-sent counter to increment (only the
ground station has `naks_sent_`). -/
theorem claim7_satellite_nak_counter_counterexample :
    (⟨1, 2, 5, 0, [], 0⟩ : Packet).verify_crc = false ∧
    satStep (fun _ => true) ⟨0, 0⟩ ⟨1, 2, 5, 0, [], 0⟩ =
      ((⟨0, 0⟩ : SatRxState), [RxEvent.sent (nakPacket 5)]) := by
  constructor <;> decide

/-- C7, amended: on a packet whose `verify_crc` fails, both endpoints emit a
NAK with the same seq, empty payload and a freshly computed (self-verifying)
CRC on the reverse direction, drop the packet (no delivery), and do not
advance `rx_seq_expected`; the ground station increments its `naks_sent_`
counter, while the satellite has no NAK-sent counter and leaves its state
unchanged. -/
theorem claim7_bad_crc_nak (parseOk : List Nat → Bool) (ssat : SatRxState)
    (sgs : GsRxState) (pkt : Packet) (hbad : pkt.verify_crc = false) :
    satStep parseOk ssat pkt = (ssat, [RxEvent.sent (nakPacket pkt.seq)]) ∧
    gsStep parseOk sgs pkt =
      ({ sgs with naks_sent := sgs.naks_sent + 1 }, [RxEvent.sent (nakPacket pkt.seq)]) ∧
    (nakPacket pkt.seq).type = 4 ∧ (nakPacket pkt.seq).seq = pkt.seq ∧
    (nakPacket pkt.seq).payload = [] ∧ (nakPacket pkt.seq).verify_crc = true := by
  refine ⟨?_, ?_, rfl, rfl, rfl, verify_crc_compute _⟩
  · simp [satStep, hbad]
  · simp [gsStep, hbad]

theorem claim7_bad_crc_nak_witness :
    (⟨1, 2, 5, 0, [], 0⟩ : Packet).verify_crc = false ∧
    gsStep (fun _ => true) ⟨0, 0, 0⟩ ⟨1, 2, 5, 0, [], 0⟩ =
      ((⟨0, 0, 1⟩ : GsRxState), [RxEvent.sent (nakPacket 5)]) ∧
    (nakPacket 5).verify_crc = true :=
  ⟨by decide,
   (claim7_bad_crc_nak (fun _ => true) ⟨0, 0⟩ ⟨0, 0, 0⟩ ⟨1, 2, 5, 0, [], 0⟩ (by decide)).2.1,
   (claim7_bad_crc_nak (fun _ => true) ⟨0, 0⟩ ⟨0, 0, 0⟩ ⟨1, 2, 5, 0, [], 0⟩ (by decide)).2.2.2.2.2⟩

/-- C10: each `wait_for_ack(seq, timeout)` call consumes at most one packet
from its inbound queue (the tail is left untouched, and an empty queue —
a timeout — consumes nothing); it returns true exactly when that single
packet is an ACK carrying the awaited seq; anything else (data packet,
ACK/NAK for another seq, NAK for this seq) is discarded with result false;
and the result never depends on any later packet in the queue. -/
theorem claim10_wait_for_ack_single_packet (seq n : Nat) (pkt : Packet)
    (q q' : List Packet) :
    satWaitForAck seq n [] = (false, n, []) ∧
    gsWaitForAck seq [] = (false, []) ∧
    (satWaitForAck seq n (pkt :: q)).2.2 = q ∧
    (gsWaitForAck seq (pkt :: q)).2 = q ∧
    ((satWaitForAck seq n (pkt :: q)).1 = true ↔ pkt.type = 3 ∧ pkt.seq = seq) ∧
    ((gsWaitForAck seq (pkt :: q)).1 = true ↔ pkt.type = 3 ∧ pkt.seq = seq) ∧
    (satWaitForAck seq n (pkt :: q)).1 = (satWaitForAck seq n (pkt :: q')).1 ∧
    (gsWaitForAck seq (pkt :: q)).1 = (gsWaitForAck seq (pkt :: q')).1 := by
  refine ⟨rfl, rfl, ?_, ?_, ?_, ?_, ?_, ?_⟩ <;>
    simp only [satWaitForAck, gsWaitForAck] <;> split_ifs <;> simp_all

/-- C8: every send call on the link increments `packets_sent_` exactly once
regardless of loss, and either increments `packets_dropped_` (packet lost)
or appends the packet to exactly one directional FIFO — never both, never
neither; consequently after any finite sequence of sends from a fresh link,
`packets_sent` equals the number of packets enqueued for delivery across
both FIFOs plus `packets_dropped`. -/
theorem claim8_link_counters (sends : List (Bool × Dir × Packet)) :
    (linkRun sends).packets_sent = sends.length ∧
    (linkRun sends).packets_sent =
      (linkRun sends).sat_to_gs.length + (linkRun sends).gs_to_sat.length +
        (linkRun sends).packets_dropped ∧
    (∀ lost pkt dir L,
      (applyImpairmentsAndSend lost pkt dir L).packets_sent = L.packets_sent + 1 ∧
      (lost = true →
        applyImpairmentsAndSend lost pkt dir L =
          { L with packets_sent := L.packets_sent + 1,
                   packets_dropped := L.packets_dropped + 1 }) ∧
      (lost = false →
        applyImpairmentsAndSend lost pkt dir L =
          (match dir with
           | Dir.satToGs => { L with packets_sent := L.packets_sent + 1,
                                     sat_to_gs := L.sat_to_gs ++ [pkt] }
           | Dir.gsToSat => { L with packets_sent := L.packets_sent + 1,
                                     gs_to_sat := L.gs_to_sat ++ [pkt] }))) := by
  have hstep : ∀ lost pkt dir (L : LinkState),
      (applyImpairmentsAndSend lost pkt dir L).packets_sent = L.packets_sent + 1 ∧
      (applyImpairmentsAndSend lost pkt dir L).sat_to_gs.length +
        (applyImpairmentsAndSend lost pkt dir L).gs_to_sat.length +
        (applyImpairmentsAndSend lost pkt dir L).packets_dropped =
        L.sat_to_gs.length + L.gs_to_sat.length + L.packets_dropped + 1 := by
    intro lost pkt dir L
    cases lost <;> cases dir <;> simp [applyImpairmentsAndSend] <;> omega
  have hrun : ∀ (L : LinkState),
      (sends.foldl (fun L e => applyImpairmentsAndSend e.1 e.2.2 e.2.1 L) L).packets_sent =
        L.packets_sent + sends.length ∧
      (sends.foldl (fun L e => applyImpairmentsAndSend e.1 e.2.2 e.2.1 L) L).sat_to_gs.length +
        (sends.foldl (fun L e => applyImpairmentsAndSend e.1 e.2.2 e.2.1 L) L).gs_to_sat.length +
        (sends.foldl (fun L e => applyImpairmentsAndSend e.1 e.2.2 e.2.1 L) L).packets_dropped =
        L.sat_to_gs.length + L.gs_to_sat.length + L.packets_dropped +
          (sends.foldl (fun L e => applyImpairmentsAndSend e.1 e.2.2 e.2.1 L) L).packets_sent -
          L.packets_sent := by
    induction sends with
    | nil => intro L; simp
    | cons e rest ih =>
      intro L
      obtain ⟨hs1, hs2⟩ := hstep e.1 e.2.2 e.2.1 L
      obtain ⟨ih1, ih2⟩ := ih (applyImpairmentsAndSend e.1 e.2.2 e.2.1 L)
      simp only [List.foldl_cons, List.length_cons]
      constructor
      · rw [ih1, hs1]; omega
      · rw [ih2, hs2, ih1, hs1]; omega
  refine ⟨?_, ?_, ?_⟩
  · have := (hrun ⟨0, 0, [], []⟩).1
    simpa [linkRun] using this
  · have h1 := (hrun ⟨0, 0, [], []⟩).1
    have h2 := (hrun ⟨0, 0, [], []⟩).2
    simp only [linkRun]
    simp only [List.length_nil] at h1 h2
    omega
  · intro lost pkt dir L
    refine ⟨(hstep lost pkt dir L).1, ?_, ?_⟩
    · intro h; subst h; rfl
    · intro h; subst h; cases dir <;> rfl

theorem claim8_link_counters_witness :
    (linkRun [(true, Dir.satToGs, ⟨1, 3, 0, 0, [], 0⟩),
              (false, Dir.satToGs, ⟨1, 3, 1, 0, [], 0⟩),
              (false, Dir.gsToSat, ⟨1, 3, 2, 0, [], 0⟩)]).packets_sent = 3 ∧
    applyImpairmentsAndSend true ⟨1, 3, 0, 0, [], 0⟩ Dir.satToGs ⟨0, 0, [], []⟩ =
      ({ (⟨0, 0, [], []⟩ : LinkState) with
           packets_sent := (⟨0, 0, [], []⟩ : LinkState).packets_sent + 1,
           packets_dropped := (⟨0, 0, [], []⟩ : LinkState).packets_dropped + 1 }) :=
  ⟨(claim8_link_counters [(true, Dir.satToGs, ⟨1, 3, 0, 0, [], 0⟩),
      (false, Dir.satToGs, ⟨1, 3, 1, 0, [], 0⟩),
      (false, Dir.gsToSat, ⟨1, 3, 2, 0, [], 0⟩)]).1,
   ((claim8_link_counters []).2.2 true ⟨1, 3, 0, 0, [], 0⟩ Dir.satToGs
      ⟨0, 0, [], []⟩).2.1 rfl⟩

theorem satStep_dup (parseOk : List Nat → Bool) (s : SatRxState) (pkt : Packet)
    (hcrc : pkt.verify_crc = true) (hty : pkt.type = 2)
    (hdup : pkt.seq < s.rx_seq_expected) :
    satStep parseOk s pkt = (s, [RxEvent.sent (ackPacket pkt.seq)]) := by
  simp [satStep, hcrc, hty, hdup]

theorem gsStep_dup (parseOk : List Nat → Bool) (s : GsRxState) (pkt : Packet)
    (hcrc : pkt.verify_crc = true) (hty : pkt.type = 1)
    (hdup : pkt.seq < s.rx_seq_expected) :
    gsStep parseOk s pkt = (s, [RxEvent.sent (ackPacket pkt.seq)]) := by
  simp [gsStep, hcrc, hty, hdup]

theorem satStep_fresh (parseOk : List Nat → Bool) (s : SatRxState) (pkt : Packet)
    (hcrc : pkt.verify_crc = true) (hty : pkt.type = 2)
    (hfresh : s.rx_seq_expected ≤ pkt.seq) :
    (satStep parseOk s pkt).1.rx_seq_expected = (pkt.seq + 1) % 4294967296 ∧
    deliveredSeqs (satStep parseOk s pkt).2 =
      (if parseOk pkt.payload then [pkt.seq] else []) := by
  have hnd : ¬ pkt.seq < s.rx_seq_expected := by omega
  by_cases hp : parseOk pkt.payload <;>
    simp [satStep, hcrc, hty, hnd, hp, deliveredSeqs]

theorem gsStep_fresh (parseOk : List Nat → Bool) (s : GsRxState) (pkt : Packet)
    (hcrc : pkt.verify_crc = true) (hty : pkt.type = 1)
    (hfresh : s.rx_seq_expected ≤ pkt.seq) :
    (gsStep parseOk s pkt).1.rx_seq_expected = (pkt.seq + 1) % 4294967296 ∧
    deliveredSeqs (gsStep parseOk s pkt).2 =
      (if parseOk pkt.payload then [pkt.seq] else []) := by
  have hnd : ¬ pkt.seq < s.rx_seq_expected := by omega
  by_cases hp : parseOk pkt.payload <;>
    simp [gsStep, hcrc, hty, hnd, hp, deliveredSeqs]

theorem satStep_mono (parseOk : List Nat → Bool) (s : SatRxState) (pkt : Packet)
    (hsq : pkt.seq < 4294967295) :
    s.rx_seq_expected ≤ (satStep parseOk s pkt).1.rx_seq_expected := by
  simp only [satStep]
  split_ifs <;> simp <;> omega

theorem gsStep_mono (parseOk : List Nat → Bool) (s : GsRxState) (pkt : Packet)
    (hsq : pkt.seq < 4294967295) :
    s.rx_seq_expected ≤ (gsStep parseOk s pkt).1.rx_seq_expected := by
  simp only [gsStep]
  split_ifs <;> simp <;> omega

theorem satStep_delivered_cases (parseOk : List Nat → Bool) (s : SatRxState) (pkt : Packet)
    (hsq : pkt.seq < 4294967295) :
    deliveredSeqs (satStep parseOk s pkt).2 = [] ∨
    (deliveredSeqs (satStep parseOk s pkt).2 = [pkt.seq] ∧
      s.rx_seq_expected ≤ pkt.seq ∧
      (satStep parseOk s pkt).1.rx_seq_expected = pkt.seq + 1) := by
  simp only [satStep]
  split_ifs with h1 h2 h3 h4 <;> simp [deliveredSeqs] <;> omega

theorem gsStep_delivered_cases (parseOk : List Nat → Bool) (s : GsRxState) (pkt : Packet)
    (hsq : pkt.seq < 4294967295) :
    deliveredSeqs (gsStep parseOk s pkt).2 = [] ∨
    (deliveredSeqs (gsStep parseOk s pkt).2 = [pkt.seq] ∧
      s.rx_seq_expected ≤ pkt.seq ∧
      (gsStep parseOk s pkt).1.rx_seq_expected = pkt.seq + 1) := by
  simp only [gsStep]
  split_ifs with h1 h2 h3 h4 <;> simp [deliveredSeqs] <;> omega

theorem satProcess_trace (parseOk : List Nat → Bool) (ps : List Packet) : ∀ s : SatRxState,
    (∀ pkt ∈ ps, pkt.seq < 4294967295) →
    s.rx_seq_expected ≤ (satProcess parseOk s ps).1.rx_seq_expected ∧
    (∀ q ∈ deliveredSeqs (satProcess parseOk s ps).2, s.rx_seq_expected ≤ q) ∧
    List.Pairwise (· < ·) (deliveredSeqs (satProcess parseOk s ps).2) := by
  induction ps with
  | nil =>
    intro s _
    simp [satProcess, deliveredSeqs]
  | cons pkt rest ih =>
    intro s hbound
    have hsq : pkt.seq < 4294967295 := hbound pkt (List.mem_cons_self pkt rest)
    have hrest : ∀ p ∈ rest, p.seq < 4294967295 :=
      fun p hp => hbound p (List.mem_cons_of_mem pkt hp)
    have hmono := satStep_mono parseOk s pkt hsq
    obtain ⟨ih1, ih2, ih3⟩ := ih (satStep parseOk s pkt).1 hrest
    have hcases := satStep_delivered_cases parseOk s pkt hsq
    have hsplit : deliveredSeqs (satProcess parseOk s (pkt :: rest)).2 =
        deliveredSeqs (satStep parseOk s pkt).2 ++
        deliveredSeqs (satProcess parseOk (satStep parseOk s pkt).1 rest).2 := by
      simp [satProcess, deliveredSeqs, List.filterMap_append]
    have hfinal : (satProcess parseOk s (pkt :: rest)).1 =
        (satProcess parseOk (satStep parseOk s pkt).1 rest).1 := by
      simp [satProcess]
    refine ⟨by rw [hfinal]; omega, ?_, ?_⟩
    · intro q hq
      rw [hsplit, List.mem_append] at hq
      rcases hq with hq | hq
      · rcases hcases with hc | ⟨hc, hge, _⟩
        · rw [hc] at hq; simp at hq
        · rw [hc] at hq; simp at hq; omega
      · have := ih2 q hq
        omega
    · rw [hsplit]
      rw [List.pairwise_append]
      refine ⟨?_, ih3, ?_⟩
      · rcases hcases with hc | ⟨hc, _, _⟩ <;> rw [hc] <;> simp
      · intro a ha b hb
        rcases hcases with hc | ⟨hc, _, hnext⟩
        · rw [hc] at ha; simp at ha
        · rw [hc] at ha; simp at ha
          subst ha
          have := ih2 b hb
          omega

theorem gsProcess_trace (parseOk : List Nat → Bool) (ps : List Packet) : ∀ s : GsRxState,
    (∀ pkt ∈ ps, pkt.seq < 4294967295) →
    s.rx_seq_expected ≤ (gsProcess parseOk s ps).1.rx_seq_expected ∧
    (∀ q ∈ deliveredSeqs (gsProcess parseOk s ps).2, s.rx_seq_expected ≤ q) ∧
    List.Pairwise (· < ·) (deliveredSeqs (gsProcess parseOk s ps).2) := by
  induction ps with
  | nil =>
    intro s _
    simp [gsProcess, deliveredSeqs]
  | cons pkt rest ih =>
    intro s hbound
    have hsq : pkt.seq < 4294967295 := hbound pkt (List.mem_cons_self pkt rest)
    have hrest : ∀ p ∈ rest, p.seq < 4294967295 :=
      fun p hp => hbound p (List.mem_cons_of_mem pkt hp)
    have hmono := gsStep_mono parseOk s pkt hsq
    obtain ⟨ih1, ih2, ih3⟩ := ih (gsStep parseOk s pkt).1 hrest
    have hcases := gsStep_delivered_cases parseOk s pkt hsq
    have hsplit : deliveredSeqs (gsProcess parseOk s (pkt :: rest)).2 =
        deliveredSeqs (gsStep parseOk s pkt).2 ++
        deliveredSeqs (gsProcess parseOk (gsStep parseOk s pkt).1 rest).2 := by
      simp [gsProcess, deliveredSeqs, List.filterMap_append]
    have hfinal : (gsProcess parseOk s (pkt :: rest)).1 =
        (gsProcess parseOk (gsStep parseOk s pkt).1 rest).1 := by
      simp [gsProcess]
    refine ⟨by rw [hfinal]; omega, ?_, ?_⟩
    · intro q hq
      rw [hsplit, List.mem_append] at hq
      rcases hq with hq | hq
      · rcases hcases with hc | ⟨hc, hge, _⟩
        · rw [hc] at hq; simp at hq
        · rw [hc] at hq; simp at hq; omega
      · have := ih2 q hq
        omega
    · rw [hsplit]
      rw [List.pairwise_append]
      refine ⟨?_, ih3, ?_⟩
      · rcases hcases with hc | ⟨hc, _, _⟩ <;> rw [hc] <;> simp
      · intro a ha b hb
        rcases hcases with hc | ⟨hc, _, hnext⟩
        · rw [hc] at ha; simp at ha
        · rw [hc] at ha; simp at ha
          subst ha
          have := ih2 b hb
          omega

/-- C5, counterexample: a CRC-valid command packet with `seq ≥ rx_seq_expected`
whose payload does not parse (here `parseOk` is the constantly-failing
parser, as `Command::deserialize` behaves on the payload `"X"`: unknown
command name, so it throws) advances `rx_seq_expected` but is NOT delivered
to the application handler — the endpoint NAKs it and `commands_received`
stays 0 — contradicting the claim's "sets rx_seq_expected to seq+1 and is
delivered". -/
theorem claim5_delivery_counterexample :
    (Packet.compute_crc ⟨1, 2, 0, 1, [88], 0⟩).verify_crc = true ∧
    (Packet.compute_crc ⟨1, 2, 0, 1, [88], 0⟩).type = 2 ∧
    (⟨0, 0⟩ : SatRxState).rx_seq_expected ≤ (Packet.compute_crc ⟨1, 2, 0, 1, [88], 0⟩).seq ∧
    satStep (fun _ => false) ⟨0, 0⟩ (Packet.compute_crc ⟨1, 2, 0, 1, [88], 0⟩) =
      ((⟨1, 0⟩ : SatRxState), [RxEvent.sent (nakPacket 0)]) := by
  refine ⟨by decide, by decide, by decide, by decide⟩

/-- C5, amended: for both inbound processors (commands at the satellite,
telemetry at the ground station), a CRC-valid data packet with
`seq < rx_seq_expected` is ACKed with its own seq, not delivered, and
leaves the state unchanged; one with `seq ≥ rx_seq_expected` sets
`rx_seq_expected` to `(seq + 1) mod 2^32` (the field is a `uint32_t`) and
its payload is handed to the application parser — it is delivered to the
handler exactly when parsing succeeds.  Provided no processed packet carries
`seq = 2^32 - 1` (no sequence wraparound within the session, which the spec
leaves unspecified and sessions are assumed short enough to avoid),
`rx_seq_expected` never decreases at any step, and across any processed
packet sequence the delivered seq values are strictly increasing, so no seq
is ever delivered to the application handler twice. -/
theorem claim5_dedup_and_monotonicity (parseOk : List Nat → Bool) :
    (∀ (s : SatRxState) (pkt : Packet), pkt.verify_crc = true → pkt.type = 2 →
      pkt.seq < s.rx_seq_expected →
      satStep parseOk s pkt = (s, [RxEvent.sent (ackPacket pkt.seq)])) ∧
    (∀ (s : GsRxState) (pkt : Packet), pkt.verify_crc = true → pkt.type = 1 →
      pkt.seq < s.rx_seq_expected →
      gsStep parseOk s pkt = (s, [RxEvent.sent (ackPacket pkt.seq)])) ∧
    (∀ (s : SatRxState) (pkt : Packet), pkt.verify_crc = true → pkt.type = 2 →
      s.rx_seq_expected ≤ pkt.seq →
      (satStep parseOk s pkt).1.rx_seq_expected = (pkt.seq + 1) % 4294967296 ∧
      deliveredSeqs (satStep parseOk s pkt).2 =
        (if parseOk pkt.payload then [pkt.seq] else [])) ∧
    (∀ (s : GsRxState) (pkt : Packet), pkt.verify_crc = true → pkt.type = 1 →
      s.rx_seq_expected ≤ pkt.seq →
      (gsStep parseOk s pkt).1.rx_seq_expected = (pkt.seq + 1) % 4294967296 ∧
      deliveredSeqs (gsStep parseOk s pkt).2 =
        (if parseOk pkt.payload then [pkt.seq] else [])) ∧
    (∀ (s : SatRxState) (pkt : Packet), pkt.seq < 4294967295 →
      s.rx_seq_expected ≤ (satStep parseOk s pkt).1.rx_seq_expected) ∧
    (∀ (s : GsRxState) (pkt : Packet), pkt.seq < 4294967295 →
      s.rx_seq_expected ≤ (gsStep parseOk s pkt).1.rx_seq_expected) ∧
    (∀ (s : SatRxState) (ps : List Packet), (∀ pkt ∈ ps, pkt.seq < 4294967295) →
      List.Pairwise (· ≠ ·) (deliveredSeqs (satProcess parseOk s ps).2)) ∧
    (∀ (s : GsRxState) (ps : List Packet), (∀ pkt ∈ ps, pkt.seq < 4294967295) →
      List.Pairwise (· ≠ ·) (deliveredSeqs (gsProcess parseOk s ps).2)) := by
  refine ⟨satStep_dup parseOk, gsStep_dup parseOk,
    satStep_fresh parseOk, gsStep_fresh parseOk,
    satStep_mono parseOk, gsStep_mono parseOk, ?_, ?_⟩
  · intro s ps hbound
    exact ((satProcess_trace parseOk ps s hbound).2.2).imp (fun h => Nat.ne_of_lt h)
  · intro s ps hbound
    exact ((gsProcess_trace parseOk ps s hbound).2.2).imp (fun h => Nat.ne_of_lt h)

theorem claim5_dedup_and_monotonicity_witness :
    ((Packet.compute_crc ⟨1, 2, 3, 0, [], 0⟩).verify_crc = true ∧
     (Packet.compute_crc ⟨1, 2, 3, 0, [], 0⟩).type = 2 ∧
     (Packet.compute_crc ⟨1, 2, 3, 0, [], 0⟩).seq < (⟨5, 0⟩ : SatRxState).rx_seq_expected) ∧
    satStep (fun _ => true) ⟨5, 0⟩ (Packet.compute_crc ⟨1, 2, 3, 0, [], 0⟩) =
      ((⟨5, 0⟩ : SatRxState),
       [RxEvent.sent (ackPacket (Packet.compute_crc ⟨1, 2, 3, 0, [], 0⟩).seq)]) ∧
    List.Pairwise (· ≠ ·) (deliveredSeqs
      (satProcess (fun _ => true) ⟨0, 0⟩
        [Packet.compute_crc ⟨1, 2, 0, 0, [], 0⟩,
         Packet.compute_crc ⟨1, 2, 1, 0, [], 0⟩]).2) :=
  ⟨⟨by decide, by decide, by decide⟩,
   (claim5_dedup_and_monotonicity (fun _ => true)).1 ⟨5, 0⟩
     (Packet.compute_crc ⟨1, 2, 3, 0, [], 0⟩) (by decide) (by decide) (by decide),
   (claim5_dedup_and_monotonicity (fun _ => true)).2.2.2.2.2.2.1 ⟨0, 0⟩
     [Packet.compute_crc ⟨1, 2, 0, 0, [], 0⟩, Packet.compute_crc ⟨1, 2, 1, 0, [], 0⟩]
     (by decide)⟩
